/-
Verification of the gotway API gateway core: a shallow embedding of the
service registry, route collision detection, route matcher, reverse-proxy
forwarding headers, the JWT token broker and the in-memory sliding-window
rate limiter, together with proofs of the specified properties.

Sources embedded (paths refer to the repository):
  internal/domain            -- data model, claims, errors
  internal/application       -- registry: register, heartbeat, deregister,
                                cleanup, collision detection
  internal/infrastructure/jwt        -- token broker (Service)
  internal/infrastructure/proxy      -- matcher, forwarding headers
  internal/infrastructure/ratelimit  -- InMemoryLimiter

Go maps are modelled as association lists (`SMap`) with lookup, insert
(overwrite) and erase; instants and durations are integers (Unix time);
RSA signatures are modelled symbolically: a `Token` records the header
algorithm, whether its signature verifies under the broker's key pair,
and the decoded claim set.
-/
import Mathlib

set_option maxHeartbeats 1000000

/-! ## Association lists modelling Go maps -/

/-- String-keyed association list modelling a Go `map[string]V`. -/
abbrev SMap (α : Type) : Type := List (String × α)

/-- Map lookup: first binding of the key, if any. -/
def alookup {α : Type} : SMap α → String → Option α
  | [], _ => none
  | (k, v) :: rest, key => if k = key then some v else alookup rest key

/-- Map deletion: removes every binding of the key. -/
def aerase {α : Type} (m : SMap α) (key : String) : SMap α :=
  m.filter (fun p => p.1 ≠ key)

/-- Map insertion with overwrite, modelling `m[k] = v` on a Go map. -/
def ainsert {α : Type} (m : SMap α) (key : String) (v : α) : SMap α :=
  (key, v) :: aerase m key

/-! ## Domain model (internal/domain) -/

/-- Service instance status (internal/domain/service.go). -/
inductive ServiceStatus where
  | healthy
  | unhealthy
  | unknown
deriving DecidableEq, Repr

/-- A running copy of a service (internal/domain/service.go `ServiceInstance`). -/
structure ServiceInstance where
  id : String
  serviceName : String
  host : String
  port : Int
  healthURL : String
  version : String
  status : ServiceStatus
  weight : Int
  metadata : SMap String
  registeredAt : Int
  lastHeartbeat : Int
deriving DecidableEq, Repr

/-- A declared endpoint (internal/domain/route.go `Route`). -/
structure Route where
  method : String
  path : String
  public : Bool
  rateLimit : Int
  scopes : List String
deriving DecidableEq, Repr

/-- Route.FullPath (internal/domain/route.go). -/
def Route.FullPath (r : Route) (basePath : String) : String :=
  if basePath = "" then r.path
  else if r.path = "" then basePath
  else basePath ++ r.path

/-- An installed route in the routing table (internal/domain/route.go `RouteEntry`). -/
structure RouteEntry where
  serviceName : String
  basePath : String
  route : Route
  registeredAt : Int
deriving DecidableEq, Repr

/-- Collision kind (internal/domain/errors.go `CollisionType`). -/
inductive CollisionType where
  | exact
  | pattern
deriving DecidableEq, Repr

/-- A rejected route registration (internal/domain/errors.go `RouteCollision`). -/
structure RouteCollision where
  method : String
  path : String
  collisionType : CollisionType
  registeredBy : String
  registeredAt : Int
deriving DecidableEq, Repr

/-- Registry-level domain errors (internal/domain/errors.go). -/
inductive DomainErr where
  | serviceNotFound
  | instanceNotFound
  | routeNotFound
  | invalidRequest
deriving DecidableEq, Repr

/-- Token errors (src/unnamed/part_004, `Err…` values), plus `notConfigured`
for the plain "key not configured" errors of the jwt service. -/
inductive TokenErr where
  | expired
  | notYetValid
  | invalidSubject
  | invalidIssuer
  | invalidAudience
  | audienceMismatch
  | issuerNotAllowed
  | invalidSignature
  | malformed
  | notConfigured
deriving DecidableEq, Repr

/-! ## Token broker (internal/infrastructure/jwt, src/unnamed/part_004)

A JWT is modelled symbolically: `Token` is a structurally well-formed,
decodable JWS whose header algorithm is `alg`, whose signature verifies
under the broker's RSA key pair iff `sigValid`, and whose decoded claim
set is `claims` (absent claims are `none`). -/

/-- JWS header signing algorithms relevant to the broker. -/
inductive Alg where
  | RS256
  | RS384
  | RS512
  | HS256
  | ES256
  | noneAlg
deriving DecidableEq, Repr

/-- Whether the method is an RSA method, i.e. the type assertion
`token.Method.(*jwt.SigningMethodRSA)` in the key function succeeds. -/
def Alg.isRSA : Alg → Bool
  | .RS256 => true
  | .RS384 => true
  | .RS512 => true
  | _ => false

/-- Decoded claim set of a token (a `jwt.MapClaims`); `none` means the
claim is absent (or, for strings, not of string type, which
`getStringClaim` also maps to `""`). -/
structure Payload where
  sub : Option String := none
  email : Option String := none
  scopes : Option (List String) := none
  iss : Option String := none
  aud : Option String := none
  originalIss : Option String := none
  trace : Option (List String) := none
  iat : Option Int := none
  exp : Option Int := none
  nbf : Option Int := none
deriving DecidableEq, Repr

/-- A decodable JWS, with its signature validity under the broker's key. -/
structure Token where
  alg : Alg
  sigValid : Bool
  claims : Payload
deriving DecidableEq, Repr

/-- Errors produced by the golang-jwt v5 `jwt.Parse` pipeline. -/
inductive JwtLibErr where
  | keyfuncError
  | sigInvalid
  | expired
  | notYetValid
deriving DecidableEq, Repr

/-- Registered-claim check of golang-jwt v5: a token passes the `exp`
check iff `exp` is absent or `now` is before it. -/
def expExpired (exp : Option Int) (now : Int) : Bool :=
  match exp with
  | some e => e ≤ now
  | none => false

/-- Registered-claim check of golang-jwt v5: a token passes the `nbf`
check iff `nbf` is absent or `now` is not before it. -/
def nbfBlocked (nbf : Option Int) (now : Int) : Bool :=
  match nbf with
  | some n => now < n
  | none => false

/-- Models `jwt.Parse` with the key function used throughout the jwt
service (registry.go): the key function rejects any non-RSA signing
method (the library wraps that error, so none of the `errors.Is` tests
in the service match it); then the library verifies the signature and
validates the registered `exp` and `nbf` claims. -/
def jwtParseErr (t : Token) (now : Int) : Option JwtLibErr :=
  if t.alg.isRSA = false then some .keyfuncError
  else if t.sigValid = false then some .sigInvalid
  else if expExpired t.claims.exp now then some .expired
  else if nbfBlocked t.claims.nbf now then some .notYetValid
  else none

/-- External claims (src/unnamed/part_004 `ExternalClaims`). -/
structure ExternalClaims where
  subject : String
  email : String
  scopes : List String
  issuer : String
  audience : String
  issuedAt : Int
  expiresAt : Int
  notBefore : Int
deriving DecidableEq, Repr

/-- Claim extraction of `Service.ValidateExternalToken` (registry.go
403-419): `getStringClaim` yields `""` for an absent claim,
`getStringSliceClaim` yields the empty slice, numeric claims default
to `0`. -/
def extractExternalClaims (p : Payload) : ExternalClaims :=
  { subject := p.sub.getD ""
    email := p.email.getD ""
    scopes := p.scopes.getD []
    issuer := p.iss.getD ""
    audience := p.aud.getD ""
    issuedAt := p.iat.getD 0
    expiresAt := p.exp.getD 0
    notBefore := p.nbf.getD 0 }

/-- ExternalClaims.Valid (src/unnamed/part_004 lines 24-40), with the
current instant made explicit. Returns the error, if any. -/
def ExternalClaims.Valid (c : ExternalClaims) (now : Int) : Option TokenErr :=
  if c.expiresAt ≠ 0 ∧ now > c.expiresAt then some .expired
  else if c.notBefore ≠ 0 ∧ now < c.notBefore then some .notYetValid
  else if c.subject = "" then some .invalidSubject
  else none

/-- Internal claims (src/unnamed/part_004 `InternalClaims`). -/
structure InternalClaims where
  subject : String
  email : String
  scopes : List String
  issuer : String
  audience : String
  trace : List String
  originalIssuer : String
  issuedAt : Int
  expiresAt : Int
deriving DecidableEq, Repr

/-- Claim extraction of `Service.ValidateInternalToken` (registry.go
505-520). -/
def extractInternalClaims (p : Payload) : InternalClaims :=
  { subject := p.sub.getD ""
    email := p.email.getD ""
    scopes := p.scopes.getD []
    issuer := p.iss.getD ""
    audience := p.aud.getD ""
    originalIssuer := p.originalIss.getD ""
    trace := p.trace.getD []
    issuedAt := p.iat.getD 0
    expiresAt := p.exp.getD 0 }

/-- InternalClaims.Valid (src/unnamed/part_004 lines 54-74). -/
def InternalClaims.Valid (c : InternalClaims) (now : Int) : Option TokenErr :=
  if c.expiresAt ≠ 0 ∧ now > c.expiresAt then some .expired
  else if c.subject = "" then some .invalidSubject
  else if c.issuer = "" then some .invalidIssuer
  else if c.audience = "" then some .invalidAudience
  else none

/-- InternalClaims.ValidateAudience (src/unnamed/part_004 lines 76-81). -/
def InternalClaims.ValidateAudience (c : InternalClaims) (expectedAudience : String) :
    Option TokenErr :=
  if c.audience ≠ expectedAudience then some .audienceMismatch else none

/-- InternalClaims.ValidateIssuer (src/unnamed/part_004 lines 83-90):
succeeds iff the issuer is in the allowed list. -/
def InternalClaims.ValidateIssuer (c : InternalClaims) (allowedIssuers : List String) :
    Option TokenErr :=
  if c.issuer ∈ allowedIssuers then none else some .issuerNotAllowed

/-- The jwt service (registry.go `jwt.Service`): key material is
abstracted to its presence; `sigValid` on a token refers to this key
pair. -/
structure Service where
  hasPublicKey : Bool
  hasPrivateKey : Bool
  issuer : String
  internalTTL : Int
  allowedIssuers : List String
deriving DecidableEq, Repr

/-- Service.ValidateExternalToken (registry.go 369-426). -/
def Service.ValidateExternalToken (s : Service) (t : Token) (now : Int) :
    Except TokenErr ExternalClaims :=
  if s.hasPublicKey = false then .error .notConfigured
  else
    match jwtParseErr t now with
    | some .expired => .error .expired
    | some .notYetValid => .error .notYetValid
    | some .sigInvalid => .error .invalidSignature
    | some .keyfuncError => .error .malformed
    | none =>
      let claims := extractExternalClaims t.claims
      match claims.Valid now with
      | some e => .error e
      | none => .ok claims

/-- Service.GenerateInternalToken (registry.go 428-448): emits an
RS256-signed token with `sub, email, scopes` copied, `iss` the gateway
issuer, `aud` the target audience, `original_iss` the external issuer,
`trace = [issuer]`, `iat = now`, `exp = now + internalTTL`. -/
def Service.GenerateInternalToken (s : Service) (extClaims : ExternalClaims)
    (audience : String) (now : Int) : Except TokenErr Token :=
  if s.hasPrivateKey = false then .error .notConfigured
  else .ok
    { alg := .RS256
      sigValid := true
      claims :=
        { sub := some extClaims.subject
          email := some extClaims.email
          scopes := some extClaims.scopes
          iss := some s.issuer
          aud := some audience
          originalIss := some extClaims.issuer
          trace := some [s.issuer]
          iat := some now
          exp := some (now + s.internalTTL)
          nbf := none } }

/-- Service.ValidateInternalToken (registry.go 474-535). Unlike the
external variant, its error mapping has no `not-yet-valid` branch, so
that library error falls through to `malformed`. -/
def Service.ValidateInternalToken (s : Service) (t : Token) (expectedAudience : String)
    (now : Int) : Except TokenErr InternalClaims :=
  if s.hasPublicKey = false then .error .notConfigured
  else
    match jwtParseErr t now with
    | some .expired => .error .expired
    | some .sigInvalid => .error .invalidSignature
    | some .keyfuncError => .error .malformed
    | some .notYetValid => .error .malformed
    | none =>
      let claims := extractInternalClaims t.claims
      match claims.Valid now with
      | some e => .error e
      | none =>
        match claims.ValidateAudience expectedAudience with
        | some e => .error e
        | none =>
          match claims.ValidateIssuer s.allowedIssuers with
          | some e => .error e
          | none => .ok claims

/-! ## Path normalisation and overlap (src/unnamed/part_005) -/

/-- Character-level model of `paramPattern.ReplaceAllString(path, "*")`
with `paramPattern = :[^/]+|\x7b[^\x7d]+\x7d`: scanning left to right, a
`:` followed by a non-empty run of non-`/` characters is replaced by
`*`, as is a brace-delimited non-empty run of non-`\x7d` characters. -/
def normChars (cs : List Char) : List Char :=
  match cs with
  | [] => []
  | ':' :: rest =>
    let run := rest.takeWhile (fun c => c ≠ '/')
    if run.isEmpty then ':' :: normChars rest
    else '*' :: normChars (rest.drop run.length)
  | '{' :: rest =>
    let body := rest.takeWhile (fun c => c ≠ '}')
    let after := rest.drop body.length
    if body.isEmpty ∨ after.isEmpty then '{' :: normChars rest
    else '*' :: normChars after.tail
  | c :: rest => c :: normChars rest
termination_by cs.length
decreasing_by
  all_goals simp only [List.length_cons, List.length_drop, List.length_tail]
  all_goals omega

/-- normalizePath (src/unnamed/part_005 lines 291-295). -/
def normalizePath (path : String) : String :=
  String.mk (normChars path.data)

/-- Removes every leading and trailing occurrence of the character,
modelling `strings.Trim(s, "/")` for the single-character cutset. -/
def trimChar (s : String) (c : Char) : String :=
  String.mk (((s.data.dropWhile (fun x => x = c)).reverse.dropWhile (fun x => x = c)).reverse)

/-- Character-level model of `strings.Split(s, "/")`: splits on every
slash; the empty input yields one empty segment. -/
def splitOnSlashChars : List Char → List (List Char)
  | [] => [[]]
  | x :: rest =>
    let r := splitOnSlashChars rest
    if x = '/' then [] :: r
    else
      match r with
      | [] => [[x]]
      | h :: t => (x :: h) :: t

/-- strings.Split(s, "/") as a string operation. -/
def splitSlash (s : String) : List String :=
  (splitOnSlashChars s.data).map fun l => String.mk l

/-- pathsOverlap (src/unnamed/part_005 lines 348-371). -/
def pathsOverlap (path1 path2 : String) : Bool :=
  if path1 = path2 then true
  else
    let segments1 := splitSlash (trimChar path1 '/')
    let segments2 := splitSlash (trimChar path2 '/')
    if segments1.length ≠ segments2.length then false
    else (segments1.zip segments2).all fun (s1, s2) =>
      s1 = "*" ∨ s2 = "*" ∨ s1 = s2

/-! ## Registry state (src/unnamed/part_006) -/

/-- RegistryConfig (src/unnamed/part_006). Durations are integers in the
same unit as instants. -/
structure RegistryConfig where
  serviceToken : String
  heartbeatTTL : Int
  healthCheckInterval : Int
  allowSameServiceOverwrite : Bool
  strictPatternMatching : Bool
deriving DecidableEq, Repr

/-- The registry's three tables under its lock (src/unnamed/part_006
`Registry`); the stop channel is omitted. -/
structure Registry where
  config : RegistryConfig
  instances : SMap ServiceInstance
  services : SMap (List String)
  routes : SMap RouteEntry
deriving DecidableEq, Repr

/-- NewRegistry (src/unnamed/part_006). -/
def NewRegistry (cfg : RegistryConfig) : Registry :=
  { config := cfg, instances := [], services := [], routes := [] }

/-- Splits a route-table key on its first `:`, modelling
`strings.SplitN(key, ":", 2)` together with the `len(parts) != 2`
guard (which only fails when the key contains no `:`). -/
def splitKey (s : String) : Option (String × String) :=
  let pre := s.data.takeWhile (fun c => c ≠ ':')
  if pre.length = s.data.length then none
  else some (String.mk pre, String.mk (s.data.drop (pre.length + 1)))

/-- Registry.checkExactCollision (src/unnamed/part_005 lines 297-312). -/
def Registry.checkExactCollision (r : Registry) (serviceName method path : String) :
    Option RouteCollision :=
  let key := method ++ ":" ++ path
  match alookup r.routes key with
  | some entry =>
    if entry.serviceName = serviceName then none
    else some
      { method := method, path := path, collisionType := .exact
        registeredBy := entry.serviceName, registeredAt := entry.registeredAt }
  | none => none

/-- Registry.checkPatternCollision (src/unnamed/part_005 lines 314-346). -/
def Registry.checkPatternCollision (r : Registry) (serviceName method path : String) :
    List RouteCollision :=
  let normalizedNew := normalizePath path
  r.routes.filterMap fun p =>
    if p.2.serviceName = serviceName then none
    else
      match splitKey p.1 with
      | none => none
      | some (existingMethod, existingPath) =>
        if existingMethod ≠ method then none
        else if pathsOverlap normalizedNew (normalizePath existingPath) then
          some
            { method := method, path := path, collisionType := .pattern
              registeredBy := p.2.serviceName, registeredAt := p.2.registeredAt }
        else none

/-- Registry.ValidateRoutes (src/unnamed/part_005 lines 373-394); the Go
version also returns an always-nil error. -/
def Registry.ValidateRoutes (r : Registry) (serviceName basePath : String)
    (routes : List Route) : List RouteCollision :=
  routes.foldl
    (fun collisions route =>
      let fullPath := route.FullPath basePath
      match r.checkExactCollision serviceName route.method fullPath with
      | some collision => collisions ++ [collision]
      | none =>
        if r.config.strictPatternMatching then
          collisions ++ r.checkPatternCollision serviceName route.method fullPath
        else collisions)
    []

/-! ## Register, heartbeat, deregister, cleanup
(src/internal/application, src/unnamed/part_005) -/

/-- RegisterRequest (src/unnamed/part_005 lines 80-89). -/
structure RegisterRequest where
  serviceName : String
  host : String
  port : Int
  healthURL : String
  version : String
  basePath : String
  routes : List Route
  metadata : SMap String
deriving DecidableEq, Repr

/-- RegisterRequest.Validate (src/unnamed/part_005 lines 91-111); the Go
version mutates the request to default the health URL, so the possibly
updated request is returned. -/
def RegisterRequest.Validate (r : RegisterRequest) : Except String RegisterRequest :=
  if r.serviceName = "" then .error "service_name is required"
  else if r.host = "" then .error "host is required"
  else if r.port ≤ 0 ∨ r.port > 65535 then .error "port must be between 1 and 65535"
  else if r.basePath = "" then .error "base_path is required"
  else if r.routes.length = 0 then .error "at least one route is required"
  else if r.healthURL = "" then .ok { r with healthURL := "/health" }
  else .ok r

/-- RegisterResponse (src/unnamed/part_005 lines 113-118); the
heartbeat interval carries the TTL (the seconds conversion is the
identity in this model's units). -/
structure RegisterResponse where
  instanceID : String
  heartbeatInterval : Int
  heartbeatURL : String
  registeredRoutes : List String
deriving DecidableEq, Repr

/-- Errors of Registry.Register: a validation message or a structured
collision error (domain.CollisionError). -/
inductive RegisterError where
  | invalid (msg : String)
  | collision (collisions : List RouteCollision)
deriving DecidableEq, Repr

/-- Registry.Register (src/internal/application/loadbalancer_test.go
lines 119-175). The fresh UUID and the clock are passed explicitly. -/
def Registry.Register (r : Registry) (req : RegisterRequest) (instanceID : String)
    (now : Int) : Except RegisterError (RegisterResponse × Registry) :=
  match req.Validate with
  | .error msg => .error (.invalid msg)
  | .ok req' =>
    let collisions := r.ValidateRoutes req'.serviceName req'.basePath req'.routes
    if collisions.length > 0 then .error (.collision collisions)
    else
      let inst : ServiceInstance :=
        { id := instanceID, serviceName := req'.serviceName, host := req'.host
          port := req'.port, healthURL := req'.healthURL, version := req'.version
          status := .healthy, weight := 1, metadata := req'.metadata
          registeredAt := now, lastHeartbeat := now }
      let st1 : Registry :=
        { r with
          instances := ainsert r.instances instanceID inst
          services := ainsert r.services req'.serviceName
            (((alookup r.services req'.serviceName).getD []) ++ [instanceID]) }
      let pr := req'.routes.foldl
        (fun (acc : SMap RouteEntry × List String) route =>
          let key := route.method ++ ":" ++ route.FullPath req'.basePath
          (ainsert acc.1 key
            { serviceName := req'.serviceName, basePath := req'.basePath
              route := route, registeredAt := now },
           acc.2 ++ [key]))
        (st1.routes, [])
      .ok
        ({ instanceID := instanceID, heartbeatInterval := r.config.heartbeatTTL
           heartbeatURL := "/internal/registry/heartbeat", registeredRoutes := pr.2 },
         { st1 with routes := pr.1 })

/-- Registry.Heartbeat (src/internal/application/heartbeat.go): updates
only the instance's last heartbeat, or fails with instance-not-found. -/
def Registry.Heartbeat (r : Registry) (instanceID : String) (now : Int) :
    Except DomainErr Registry :=
  match alookup r.instances instanceID with
  | none => .error .instanceNotFound
  | some inst =>
    .ok { r with instances := ainsert r.instances instanceID { inst with lastHeartbeat := now } }

/-- Registry.removeInstanceLocked (src/internal/application/cleanup.go
lines 69-95): removes the id from its service bucket; if the bucket
becomes (or was) empty, prunes the service's routes and the bucket;
finally deletes the instance. -/
def Registry.removeInstanceLocked (r : Registry) (instanceID : String) : Registry :=
  match alookup r.instances instanceID with
  | none => r
  | some inst =>
    let s := inst.serviceName
    let services1 :=
      match alookup r.services s with
      | none => r.services
      | some ids =>
        if instanceID ∈ ids then ainsert r.services s (ids.erase instanceID)
        else r.services
    let bucket := (alookup services1 s).getD []
    if bucket.isEmpty then
      { r with
        instances := aerase r.instances instanceID
        services := aerase services1 s
        routes := r.routes.filter (fun p => p.2.serviceName ≠ s) }
    else
      { r with
        instances := aerase r.instances instanceID
        services := services1 }

/-- Registry.Deregister (src/internal/application/loadbalancer_test.go
lines 177-208): fails with instance-not-found for an unknown id,
otherwise performs exactly the removal of `removeInstanceLocked`
(whose body it duplicates in the source). -/
def Registry.Deregister (r : Registry) (instanceID : String) : Except DomainErr Registry :=
  match alookup r.instances instanceID with
  | none => .error .instanceNotFound
  | some _ => .ok (r.removeInstanceLocked instanceID)

/-- Status transition of one cleanup scan
(src/internal/application/cleanup.go lines 44-62): an instance past
twice the TTL is collected for removal and left as is; a healthy
instance past the TTL is marked unhealthy; others are unchanged. -/
def markInstance (ttl now : Int) (inst : ServiceInstance) : ServiceInstance :=
  if now - inst.lastHeartbeat > ttl * 2 then inst
  else if now - inst.lastHeartbeat > ttl ∧ inst.status = .healthy then
    { inst with status := .unhealthy }
  else inst

/-- Registry.cleanup (src/internal/application/cleanup.go lines 37-67):
one scan marks stale healthy instances unhealthy and removes every
instance whose heartbeat is older than twice the TTL. -/
def Registry.cleanup (r : Registry) (now : Int) : Registry :=
  let ttl := r.config.heartbeatTTL
  let toRemove := (r.instances.filter
    (fun p => now - p.2.lastHeartbeat > ttl * 2)).map Prod.fst
  let marked : Registry :=
    { r with instances := r.instances.map (fun p => (p.1, markInstance ttl now p.2)) }
  toRemove.foldl (fun st id => st.removeInstanceLocked id) marked

/-! ## Route matcher (internal/infrastructure/proxy/matcher.go) -/

/-- Splits a path into segments after trimming `/` from both ends,
modelling `strings.Split(strings.Trim(p, "/"), "/")`. -/
def splitPath (p : String) : List String :=
  splitSlash (trimChar p '/')

/-- The per-segment loop of matchPathWithParams (matcher.go lines
65-89): a `*` pattern segment captures the joined remainder; a path
shorter than the pattern fails; a `:name` segment captures the path
segment; any other pattern segment must equal the path segment
literally. -/
def matchSegs : List String → List String → SMap String →
    Option (SMap String)
  | [], _, params => some params
  | pseg :: ps, ss, params =>
    if pseg = "*" then some (ainsert params "*" (String.intercalate "/" ss))
    else
      match ss with
      | [] => none
      | sseg :: ss' =>
        if pseg.data.head? = some ':' then
          matchSegs ps ss' (ainsert params (String.mk (pseg.data.drop 1)) sseg)
        else if pseg = sseg then matchSegs ps ss' params
        else none

/-- matchPathWithParams (matcher.go lines 49-90): `some params` models
the `(params, true)` result, `none` the `(nil, false)` result. -/
def matchPathWithParams (pattern path : String) : Option (SMap String) :=
  let patternSegments := splitPath pattern
  let pathSegments := splitPath path
  if patternSegments.length ≠ pathSegments.length then
    if patternSegments.length > 0 ∧ patternSegments.getLast? = some "*" then
      if pathSegments.length < patternSegments.length - 1 then none
      else matchSegs patternSegments pathSegments []
    else none
  else matchSegs patternSegments pathSegments []

/-! ## Forwarding headers (internal/services/token_Service.go, proxy
Director, lines 115-122) -/

/-- The X-Forwarded-Proto value sent upstream: start from `http`,
switch to `https` when the inbound connection carries TLS state, then
let a non-empty incoming X-Forwarded-Proto header override either. -/
def forwardedProto (tls : Bool) (incomingForwardedProto : String) : String :=
  let proto := "http"
  let proto := if tls then "https" else proto
  if incomingForwardedProto ≠ "" then incomingForwardedProto else proto

/-! ## In-memory sliding-window limiter
(internal/infrastructure/ratelimit/limiter.go) -/

/-- Result of a rate-limit check (limiter.go `Result`). -/
structure RLResult where
  allowed : Bool
  limit : Int
  remaining : Int
  resetAt : Int
deriving DecidableEq, Repr

/-- The 60-second window (limiter.go: `window: time.Minute`), in the
same unit as instants. -/
def rlWindow : Int := 60

/-- InMemoryLimiter.Allow (limiter.go lines 94-129). The store maps a
key to its recorded timestamps; the clock is explicit. Timestamps kept
are those strictly after `now - window` (`ts.After(windowStart)`). -/
def InMemoryAllow (requests : SMap (List Int)) (key : String) (limit : Int)
    (now : Int) : RLResult × SMap (List Int) :=
  let windowStart := now - rlWindow
  let timestamps := (alookup requests key).getD []
  let validTimestamps := timestamps.filter (fun ts => windowStart < ts)
  let count : Int := validTimestamps.length
  let allowed := count < limit
  let validTimestamps' := if allowed then validTimestamps ++ [now] else validTimestamps
  let requests' := ainsert requests key validTimestamps'
  let remaining0 := limit - count - 1
  let remaining1 := if remaining0 < 0 then 0 else remaining0
  let remaining := if allowed then remaining1 else 0
  ({ allowed := allowed, limit := limit, remaining := remaining
     resetAt := now + rlWindow }, requests')

/-- Iterated calls of the in-memory limiter on one key, returning the
sequence of allow decisions and the final store. -/
def allowRun (requests : SMap (List Int)) (key : String) (limit : Int) :
    List Int → List Bool × SMap (List Int)
  | [] => ([], requests)
  | t :: ts =>
    let r := InMemoryAllow requests key limit t
    let rest := allowRun r.2 key limit ts
    (r.1.allowed :: rest.1, rest.2)

/-! ## Reachability and the registry invariant -/

/-- The registry invariant (spec section 8): every id in any services
bucket is a key of the instances map, the instance stored under it has
that bucket's service name, and buckets are duplicate-free. -/
def RegistryInv (r : Registry) : Prop :=
  ∀ s ids, alookup r.services s = some ids →
    ids.Nodup ∧
    ∀ id ∈ ids, ∃ inst, alookup r.instances id = some inst ∧ inst.serviceName = s

/-- States reachable from a fresh registry by any sequence of register
(with a fresh uuid, which `uuid.New()` guarantees), heartbeat,
deregister and cleanup scans. -/
inductive Reachable : Registry → Prop where
  | new (cfg : RegistryConfig) : Reachable (NewRegistry cfg)
  | register {r : Registry} {req : RegisterRequest} {id : String} {now : Int}
      {resp : RegisterResponse} {r' : Registry} :
      Reachable r → alookup r.instances id = none →
      r.Register req id now = .ok (resp, r') → Reachable r'
  | heartbeat {r : Registry} {id : String} {now : Int} {r' : Registry} :
      Reachable r → r.Heartbeat id now = .ok r' → Reachable r'
  | deregister {r : Registry} {id : String} {r' : Registry} :
      Reachable r → r.Deregister id = .ok r' → Reachable r'
  | cleanup {r : Registry} (now : Int) :
      Reachable r → Reachable (r.cleanup now)

/-! ## Concrete instances used as witness and counterexample inputs -/

/-- A broker configured like the default environment: gateway issuer
`api-api`, allowed issuers only `auth-service`. -/
def svcDefaultIssuers : Service :=
  { hasPublicKey := true, hasPrivateKey := true, issuer := "api-api"
    internalTTL := 300, allowedIssuers := ["auth-service"] }

/-- A broker whose own issuer is in its allowed list. -/
def svcSelfAllowed : Service :=
  { hasPublicKey := true, hasPrivateKey := true, issuer := "api-api"
    internalTTL := 300, allowedIssuers := ["api-api", "auth-service"] }

/-- An external claim set with a non-empty subject. -/
def extSample : ExternalClaims :=
  { subject := "user-123", email := "user@example.com", scopes := ["read"]
    issuer := "auth-service", audience := "", issuedAt := 0, expiresAt := 0
    notBefore := 0 }

/-- A token whose header declares RS384, signed with the broker's key. -/
def tokRS384 : Token :=
  { alg := .RS384, sigValid := true, claims := { sub := some "user-123" } }

/-- A token whose header declares HS256. -/
def tokHS256 : Token :=
  { alg := .HS256, sigValid := true, claims := { sub := some "user-123" } }

/-- A well-signed RS256 token carrying no exp and no nbf claim. -/
def tokNoExp : Token :=
  { alg := .RS256, sigValid := true
    claims := { sub := some "user-7", iss := some "auth-service" } }

/-- A registry configuration with a 100-tick heartbeat TTL and strict
pattern matching. -/
def cfgSample : RegistryConfig :=
  { serviceToken := "", heartbeatTTL := 100, healthCheckInterval := 10
    allowSameServiceOverwrite := false, strictPatternMatching := true }

/-- A single-route registration request. -/
def reqSample : RegisterRequest :=
  { serviceName := "user-service", host := "localhost", port := 8081
    healthURL := "", version := "", basePath := "/api/v1"
    routes := [{ method := "GET", path := "/users", public := false, rateLimit := 0, scopes := [] }]
    metadata := [] }

/-- The sample route of `reqSample`. -/
def routeSample : Route :=
  { method := "GET", path := "/users", public := false, rateLimit := 0, scopes := [] }

/-- The registry state after `reqSample` registered on an empty registry. -/
def stSample : Registry :=
  match (NewRegistry cfgSample).Register reqSample "i1" 0 with
  | .ok (_, st) => st
  | .error _ => NewRegistry cfgSample

/-- The instance stored by that registration. -/
def instSample : ServiceInstance :=
  { id := "i1", serviceName := "user-service", host := "localhost", port := 8081
    healthURL := "/health", version := "", status := .healthy, weight := 1
    metadata := [], registeredAt := 0, lastHeartbeat := 0 }

/-- The response of that same registration. -/
def respSample : RegisterResponse :=
  match (NewRegistry cfgSample).Register reqSample "i1" 0 with
  | .ok (resp, _) => resp
  | .error _ =>
    { instanceID := "", heartbeatInterval := 0, heartbeatURL := "", registeredRoutes := [] }

/-! ## Lemmas about the map operations -/

theorem alookup_ainsert_self {α : Type} (m : SMap α) (k : String) (v : α) :
    alookup (ainsert m k v) k = some v := by
  simp [ainsert, alookup]

theorem aerase_cons_eq {α : Type} (p : String × α) (rest : SMap α) (k : String)
    (hp : p.1 = k) : aerase (p :: rest) k = aerase rest k := by
  simp [aerase, List.filter_cons, hp]

theorem aerase_cons_ne {α : Type} (p : String × α) (rest : SMap α) (k : String)
    (hp : ¬ p.1 = k) : aerase (p :: rest) k = p :: aerase rest k := by
  simp [aerase, List.filter_cons, hp]

theorem alookup_aerase_ne {α : Type} (m : SMap α) {k k' : String} (h : k' ≠ k) :
    alookup (aerase m k) k' = alookup m k' := by
  induction m with
  | nil => rfl
  | cons p rest ih =>
    by_cases hp : p.1 = k
    · have hne : ¬ p.1 = k' := by
        intro hc; rw [← hc] at h; exact h hp
      rw [aerase_cons_eq p rest k hp, ih]
      simp [alookup, hne]
    · rw [aerase_cons_ne p rest k hp]
      simp only [alookup]
      rw [ih]

theorem alookup_aerase_self {α : Type} (m : SMap α) (k : String) :
    alookup (aerase m k) k = none := by
  induction m with
  | nil => rfl
  | cons p rest ih =>
    by_cases hp : p.1 = k
    · rw [aerase_cons_eq p rest k hp]; exact ih
    · rw [aerase_cons_ne p rest k hp]
      simp only [alookup, hp, if_false]
      exact ih

theorem alookup_ainsert_ne {α : Type} (m : SMap α) {k k' : String} (v : α) (h : k' ≠ k) :
    alookup (ainsert m k v) k' = alookup m k' := by
  have hk : ¬ k = k' := fun hc => h (hc ▸ rfl)
  simp only [ainsert, alookup, hk, if_false]
  exact alookup_aerase_ne m h

theorem alookup_mem {α : Type} {m : SMap α} {k : String} {v : α}
    (h : alookup m k = some v) : (k, v) ∈ m := by
  induction m with
  | nil => simp [alookup] at h
  | cons p rest ih =>
    by_cases hp : p.1 = k
    · simp only [alookup, hp, if_true, Option.some.injEq] at h
      subst h
      have : p = (k, p.2) := by
        cases p; simp_all
      rw [this] at *
      exact List.mem_cons_self _ _
    · simp only [alookup, hp, if_false] at h
      exact List.mem_cons_of_mem _ (ih h)

theorem alookup_eq_none_of_not_mem_keys {α : Type} {m : SMap α} {k : String}
    (h : k ∉ m.map Prod.fst) : alookup m k = none := by
  induction m with
  | nil => rfl
  | cons p rest ih =>
    simp only [List.map_cons, List.mem_cons, not_or] at h
    have hp : ¬ p.1 = k := fun hc => h.1 (hc ▸ rfl)
    simp only [alookup, hp, if_false]
    exact ih h.2

theorem mem_keys_of_alookup {α : Type} {m : SMap α} {k : String} {v : α}
    (h : alookup m k = some v) : k ∈ m.map Prod.fst := by
  have := alookup_mem h
  exact List.mem_map.2 ⟨(k, v), this, rfl⟩

/-- On a list with no duplicate keys, membership determines the lookup. -/
theorem alookup_of_mem_nodup {α : Type} {m : SMap α} {k : String} {v : α}
    (hn : (m.map Prod.fst).Nodup) (h : (k, v) ∈ m) : alookup m k = some v := by
  induction m with
  | nil => simp at h
  | cons p rest ih =>
    simp only [List.map_cons, List.nodup_cons] at hn
    rcases List.mem_cons.1 h with h1 | h1
    · rw [← h1]; simp [alookup]
    · have hk : ¬ p.1 = k := by
        intro hc
        exact hn.1 (hc ▸ List.mem_map.2 ⟨(k, v), h1, rfl⟩)
      simp only [alookup, hk, if_false]
      exact ih hn.2 h1

theorem alookup_filter_eq_none {α : Type} {m : SMap α} {k : String}
    (p : String × α → Bool) (h : alookup m k = none) :
    alookup (m.filter p) k = none := by
  induction m with
  | nil => rfl
  | cons q rest ih =>
    by_cases hq : q.1 = k
    · simp [alookup, hq] at h
    · simp [alookup, hq] at h
      by_cases hf : p q
      · simp [List.filter_cons, hf, alookup, hq]
        exact ih h
      · simp [List.filter_cons, hf]
        exact ih h

/-- Lookup through a key-preserving map of the entries. -/
theorem alookup_map_entries {α β : Type} (m : SMap α) (f : String → α → β) (k : String) :
    alookup (m.map (fun p => (p.1, f p.1 p.2))) k = (alookup m k).map (f k) := by
  induction m with
  | nil => rfl
  | cons p rest ih =>
    by_cases hp : p.1 = k
    · subst hp; simp [alookup]
    · simp [alookup, hp, ih]

/-! ## Claim C7: X-Forwarded-Proto precedence -/

/-- C7 counterexample: on a TLS-terminated connection that also carries
an incoming X-Forwarded-Proto of `http`, the Director sends `http`
upstream, not `https` — the incoming header overrides the TLS-derived
value, so the claimed precedence (TLS first) is false. -/
theorem c7_counterexample :
    forwardedProto true "http" = "http" ∧ ("http" : String) ≠ "https" :=
  ⟨rfl, by decide⟩

/-- C7 amended: the X-Forwarded-Proto header sent upstream equals the
incoming X-Forwarded-Proto value whenever one is present; only
otherwise is it `https` for a TLS-terminated connection, and `http`
in the remaining case. -/
theorem c7_amended (tls : Bool) (incoming : String) :
    (incoming ≠ "" → forwardedProto tls incoming = incoming) ∧
    (incoming = "" → tls = true → forwardedProto tls incoming = "https") ∧
    (incoming = "" → tls = false → forwardedProto tls incoming = "http") := by
  refine ⟨fun h => ?_, fun h ht => ?_, fun h ht => ?_⟩
  · simp [forwardedProto, h]
  · subst ht; simp [forwardedProto, h]
  · subst ht; simp [forwardedProto, h]

/-- C7 witness: the amended statement evaluated on a TLS connection
with incoming header `grpc`. -/
theorem c7_witness : ("grpc" : String) ≠ "" ∧ forwardedProto true "grpc" = "grpc" :=
  ⟨by decide, (c7_amended true "grpc").1 (by decide)⟩

/-! ## Claim C8: brace-delimited pattern segments in the matcher -/

/-- C8 counterexample: the matcher does not treat a `\x7bname\x7d`
segment like `:name` — the pattern `/users/\x7bid\x7d` fails to match
the path `/users/42` although the claim requires a match capturing
`id = 42`. -/
theorem c8_counterexample : matchPathWithParams "/users/{id}" "/users/42" = none := by
  rfl

/-- C8 amended: in `matchPathWithParams` only `:name` and a trailing
`*` are special; every other pattern segment — including one written
`\x7bname\x7d` — is a literal that matches exactly the identical path
segment and captures nothing. -/
theorem c8_amended (pseg sseg : String) (ps ss : List String) (params : SMap String)
    (hcolon : pseg.data.head? ≠ some ':') (hstar : pseg ≠ "*") :
    matchSegs (pseg :: ps) (sseg :: ss) params =
      if pseg = sseg then matchSegs ps ss params else none := by
  simp only [matchSegs, hstar, if_false, hcolon]

/-- C8 witness: the amended statement evaluated on the brace segment
`\x7bid\x7d` against the differing path segment `42` and the equal
literal segment `\x7bid\x7d`. -/
theorem c8_witness :
    matchSegs ["{id}"] ["42"] [] = none ∧
    matchSegs ["{id}"] ["{id}"] [] = some [] := by
  constructor
  · rw [c8_amended "{id}" "42" [] [] [] (by decide) (by decide)]
    rfl
  · rw [c8_amended "{id}" "{id}" [] [] [] (by decide) (by decide)]
    rfl

/-! ## Claim C6: accepted signing algorithms -/

/-- C6 counterexample: a well-signed token whose header declares RS384
— an algorithm other than RS256 — validates successfully instead of
failing with the malformed error: the key function accepts any
`SigningMethodRSA`. -/
theorem c6_counterexample :
    svcDefaultIssuers.ValidateExternalToken tokRS384 0 =
      .ok { subject := "user-123", email := "", scopes := [], issuer := ""
            audience := "", issuedAt := 0, expiresAt := 0, notBefore := 0 } := by
  rfl

/-- C6 amended: ValidateExternalToken accepts only the RSA family
(RS256, RS384, RS512): for every token whose header declares a
non-RSA signing algorithm, validation fails with the malformed
error. -/
theorem c6_amended (s : Service) (t : Token) (now : Int)
    (hpub : s.hasPublicKey = true) (halg : t.alg.isRSA = false) :
    s.ValidateExternalToken t now = .error .malformed := by
  simp [Service.ValidateExternalToken, jwtParseErr, hpub, halg]

/-- C6 witness: the amended statement evaluated on an HS256 token. -/
theorem c6_witness :
    svcDefaultIssuers.hasPublicKey = true ∧ tokHS256.alg.isRSA = false ∧
    svcDefaultIssuers.ValidateExternalToken tokHS256 0 = .error .malformed :=
  ⟨rfl, rfl, c6_amended svcDefaultIssuers tokHS256 0 rfl rfl⟩

/-! ## Claim C10: tokens without an exp claim -/

/-- C10: the expired error is tied to the presence of an exp claim: a
validation result of TokenExpired implies the token carried exp (first
conjunct); a well-signed RSA token with no exp claim, no nbf claim and
a non-empty subject validates successfully at every instant (second
conjunct); and a well-signed RSA token whose exp claim is not after
`now` fails with TokenExpired (third conjunct). -/
theorem c10_no_exp_never_expires :
    (∀ (s : Service) (t : Token) (now : Int),
        s.ValidateExternalToken t now = .error .expired → t.claims.exp ≠ none) ∧
    (∀ (s : Service) (t : Token) (now : Int),
        s.hasPublicKey = true → t.alg.isRSA = true → t.sigValid = true →
        t.claims.exp = none → t.claims.nbf = none → t.claims.sub.getD "" ≠ "" →
        s.ValidateExternalToken t now = .ok (extractExternalClaims t.claims)) ∧
    (∀ (s : Service) (t : Token) (now : Int),
        s.hasPublicKey = true → t.alg.isRSA = true → t.sigValid = true →
        (∃ e, t.claims.exp = some e ∧ e ≤ now) →
        s.ValidateExternalToken t now = .error .expired) := by
  refine ⟨?_, ?_, ?_⟩
  · intro s t now h hno
    by_cases hpub : s.hasPublicKey = false
    · simp [Service.ValidateExternalToken, hpub] at h
    · simp only [Service.ValidateExternalToken, hpub, if_false] at h
      cases hj : jwtParseErr t now with
      | some e =>
        cases e <;> simp only [hj] at h <;> try exact (Except.error.injEq _ _).1 h |>.elim
        all_goals
          simp [jwtParseErr, expExpired, hno] at hj h
          try (split_ifs at hj <;> simp_all)
      | none =>
        simp only [hj] at h
        simp only [ExternalClaims.Valid, extractExternalClaims, hno, Option.getD_none] at h
        split_ifs at h <;> simp_all
  · intro s t now hpub halg hsig hexp hnbf hsub
    simp [Service.ValidateExternalToken, jwtParseErr, expExpired, nbfBlocked, hpub, halg,
      hsig, hexp, hnbf, ExternalClaims.Valid, extractExternalClaims, hsub]
  · intro s t now hpub halg hsig hexp
    obtain ⟨e, he, hle⟩ := hexp
    simp [Service.ValidateExternalToken, jwtParseErr, expExpired, hpub, halg, hsig, he, hle]

/-- C10 witness: the success conjunct evaluated on a concrete
well-signed token without exp at a large instant. -/
theorem c10_witness :
    svcDefaultIssuers.ValidateExternalToken tokNoExp 999999999 =
      .ok (extractExternalClaims tokNoExp.claims) :=
  c10_no_exp_never_expires.2.1 svcDefaultIssuers tokNoExp 999999999
    rfl rfl rfl rfl rfl (by decide)

/-! ## Claim C1: internal-token round trip -/

/-- C1 counterexample: with the configuration's default issuer sets
(gateway issuer `api-api`, allowed issuers `auth-service` only), the
round trip fails with TokenIssuerNotAllowed although the external
claims have a non-empty subject — `ValidateInternalToken` requires the
minted `iss` to be in `allowed_issuers`, which the claim ignores. -/
theorem c1_counterexample :
    (match svcDefaultIssuers.GenerateInternalToken extSample "user-service" 1000 with
     | .ok tok => svcDefaultIssuers.ValidateInternalToken tok "user-service" 1000
     | .error e => .error e) = .error .issuerNotAllowed := by
  rfl

/-- C1 amended: the round trip
`ValidateInternalToken(GenerateInternalToken(ext, aud), aud)` succeeds
with `sub = ext.sub`, `original_iss = ext.iss`, `trace =
[gateway_issuer]` and `aud = aud` provided, in addition to the
non-empty subject, that the audience and the gateway issuer are
non-empty, the gateway issuer is itself in `allowed_issuers`, and the
internal TTL is positive. -/
theorem c1_amended (s : Service) (ext : ExternalClaims) (aud : String) (now : Int)
    (hpriv : s.hasPrivateKey = true) (hpub : s.hasPublicKey = true)
    (hsub : ext.subject ≠ "") (haud : aud ≠ "") (hiss : s.issuer ≠ "")
    (hallow : s.issuer ∈ s.allowedIssuers) (httl : 0 < s.internalTTL) :
    ∃ tok claims,
      s.GenerateInternalToken ext aud now = .ok tok ∧
      s.ValidateInternalToken tok aud now = .ok claims ∧
      claims.subject = ext.subject ∧ claims.originalIssuer = ext.issuer ∧
      claims.trace = [s.issuer] ∧ claims.audience = aud := by
  have hgen : s.GenerateInternalToken ext aud now = .ok
      { alg := .RS256, sigValid := true
        claims := { sub := some ext.subject, email := some ext.email
                    scopes := some ext.scopes, iss := some s.issuer, aud := some aud
                    originalIss := some ext.issuer, trace := some [s.issuer]
                    iat := some now, exp := some (now + s.internalTTL), nbf := none } } := by
    simp [Service.GenerateInternalToken, hpriv]
  have h1 : ¬ (now + s.internalTTL ≤ now) := by omega
  have h2 : ¬ (now > now + s.internalTTL) := by omega
  refine ⟨_,
    { subject := ext.subject, email := ext.email, scopes := ext.scopes
      issuer := s.issuer, audience := aud, trace := [s.issuer]
      originalIssuer := ext.issuer, issuedAt := now, expiresAt := now + s.internalTTL },
    hgen, ?_, rfl, rfl, rfl, rfl⟩
  simp [Service.ValidateInternalToken, jwtParseErr, Alg.isRSA, expExpired, nbfBlocked,
    hpub, extractInternalClaims, InternalClaims.Valid, InternalClaims.ValidateAudience,
    InternalClaims.ValidateIssuer, hsub, haud, hiss, hallow, h1, h2]

/-- C1 witness: the amended round trip on a broker whose issuer is in
its own allowed list. -/
theorem c1_witness :
    ∃ tok claims,
      svcSelfAllowed.GenerateInternalToken extSample "user-service" 1000 = .ok tok ∧
      svcSelfAllowed.ValidateInternalToken tok "user-service" 1000 = .ok claims ∧
      claims.subject = extSample.subject ∧ claims.originalIssuer = extSample.issuer ∧
      claims.trace = [svcSelfAllowed.issuer] ∧ claims.audience = "user-service" :=
  c1_amended svcSelfAllowed extSample "user-service" 1000 rfl rfl (by decide) (by decide)
    (by decide) (by decide) (by decide)

/-! ## Claim C9: heartbeat frame conditions -/

/-- C9: for a known id, Heartbeat succeeds and only updates that
instance's last heartbeat — the instance is otherwise unchanged, every
other instance's lookup is unchanged, and the services and routes maps
and the configuration are untouched; for an unknown id it fails with
the instance-not-found error (and, being a pure function of the state,
changes nothing). -/
theorem c9_heartbeat_frame (r : Registry) (instanceID : String) (now : Int) :
    (∀ inst, alookup r.instances instanceID = some inst →
      ∃ r', r.Heartbeat instanceID now = .ok r' ∧
        alookup r'.instances instanceID = some { inst with lastHeartbeat := now } ∧
        (∀ j, j ≠ instanceID → alookup r'.instances j = alookup r.instances j) ∧
        r'.services = r.services ∧ r'.routes = r.routes ∧ r'.config = r.config) ∧
    (alookup r.instances instanceID = none →
      r.Heartbeat instanceID now = .error .instanceNotFound) := by
  constructor
  · intro inst hfind
    refine ⟨({ r with
                instances := ainsert r.instances instanceID { inst with lastHeartbeat := now } }
              : Registry), ?_, ?_, ?_, rfl, rfl, rfl⟩
    · simp [Registry.Heartbeat, hfind]
    · exact alookup_ainsert_self _ _ _
    · intro j hj
      exact alookup_ainsert_ne _ _ hj
  · intro hnone
    simp [Registry.Heartbeat, hnone]

/-- C9 witness: the frame statement evaluated on the sample registry. -/
theorem c9_witness :
    ∃ r', stSample.Heartbeat "i1" 42 = .ok r' ∧
      alookup r'.instances "i1" = some { instSample with lastHeartbeat := 42 } ∧
      (∀ j, j ≠ "i1" → alookup r'.instances j = alookup stSample.instances j) ∧
      r'.services = stSample.services ∧ r'.routes = stSample.routes ∧
      r'.config = stSample.config :=
  (c9_heartbeat_frame stSample "i1" 42).1 instSample (by rfl)

/-! ## Claim C5: in-memory sliding-window limiter -/

/-- Iterated limiter calls whose instants all lie within one window of
each other, against a store whose prior timestamps also stay in the
window throughout: the k-th call is allowed exactly while the stored
count `pre.length + k` is below the limit. -/
theorem allowRun_spec (key : String) (limit : Int) :
    ∀ (times : List Int) (m : SMap (List Int)) (pre : List Int),
      (alookup m key).getD [] = pre →
      (∀ p ∈ pre, ∀ t ∈ times, t - rlWindow < p) →
      (∀ t ∈ times, ∀ u ∈ times, t - u < rlWindow) →
      (allowRun m key limit times).1 =
        (List.range times.length).map
          (fun k : Nat => decide ((pre.length : Int) + (k : Int) < limit)) := by
  intro times
  induction times with
  | nil => intro m pre _ _ _; rfl
  | cons t rest ih =>
    intro m pre hpre hpw hwin
    have hfilter : pre.filter (fun ts => t - rlWindow < ts) = pre := by
      rw [List.filter_eq_self]
      intro p hp
      exact decide_eq_true (hpw p hp t (List.mem_cons_self _ _))
    have hrange : List.range (rest.length + 1) = 0 :: (List.range rest.length).map Nat.succ :=
      List.range_succ_eq_map rest.length
    simp only [allowRun, InMemoryAllow, hpre, hfilter, List.length_cons, hrange,
      List.map_cons, List.map_map, List.cons.injEq]
    by_cases hallow : (pre.length : Int) < limit
    · have hstore : (alookup (ainsert m key (pre ++ [t])) key).getD [] = pre ++ [t] := by
        rw [alookup_ainsert_self]; rfl
      have htail := ih (ainsert m key (pre ++ [t])) (pre ++ [t]) hstore
        (by
          intro p hp u hu
          rcases List.mem_append.1 hp with h1 | h1
          · exact hpw p h1 u (List.mem_cons_of_mem _ hu)
          · have hpt : p = t := by simpa using h1
            subst hpt
            have := hwin u (List.mem_cons_of_mem _ hu) p (List.mem_cons_self _ _)
            omega)
        (by
          intro a ha b hb
          exact hwin a (List.mem_cons_of_mem _ ha) b (List.mem_cons_of_mem _ hb))
      rw [if_pos hallow]
      refine ⟨?_, ?_⟩
      · rw [decide_eq_decide]
        push_cast
        omega
      · rw [htail]
        apply List.map_congr_left
        intro k _
        rw [Function.comp_apply, decide_eq_decide]
        push_cast [List.length_append, List.length_singleton]
        omega
    · have hstore : (alookup (ainsert m key pre) key).getD [] = pre := by
        rw [alookup_ainsert_self]; rfl
      have htail := ih (ainsert m key pre) pre hstore
        (by
          intro p hp u hu
          exact hpw p hp u (List.mem_cons_of_mem _ hu))
        (by
          intro a ha b hb
          exact hwin a (List.mem_cons_of_mem _ ha) b (List.mem_cons_of_mem _ hb))
      rw [if_neg hallow]
      refine ⟨?_, ?_⟩
      · rw [decide_eq_decide]
        push_cast
        omega
      · rw [htail]
        apply List.map_congr_left
        intro k _
        rw [Function.comp_apply, decide_eq_decide]
        push_cast
        omega

/-- The decision sequence `k < n` over `range (n+1)`: n allowed, then
one denial. -/
theorem range_map_decide (n : Nat) :
    (List.range (n + 1)).map (fun k : Nat => decide ((k : Int) < (n : Int))) =
      List.replicate n true ++ [false] := by
  rw [List.range_succ, List.map_append]
  congr 1
  · have hlen : (List.map (fun k : Nat => decide ((k : Int) < (n : Int))) (List.range n)).length
        = n := by simp
    conv_rhs => rw [← hlen]
    apply List.eq_replicate_length.2
    intro b hb
    rcases List.mem_map.1 hb with ⟨k, hk, rfl⟩
    rw [List.mem_range] at hk
    simp only [decide_eq_true_eq]
    exact_mod_cast hk
  · simp

/-- C5: on every call of the in-memory limiter, the request is allowed
iff strictly fewer than `limit` stored timestamps lie within the last
window (strictly after `now - 60`); `reset_at = now + 60`; `remaining`
is `max(limit - count - 1, 0)` when allowed and `0` when denied; and a
run of `limit + 1` calls inside one window starting from an empty key
allows exactly the first `limit` and denies the last. -/
theorem c5_inmemory_limiter (requests : SMap (List Int)) (key : String) (limit now : Int)
    (hpos : 0 < limit) :
    ((InMemoryAllow requests key limit now).1.allowed = true ↔
      ((((alookup requests key).getD []).filter
          (fun ts => now - rlWindow < ts)).length : Int) < limit) ∧
    (InMemoryAllow requests key limit now).1.resetAt = now + rlWindow ∧
    (InMemoryAllow requests key limit now).1.remaining =
      (if (InMemoryAllow requests key limit now).1.allowed = true then
        max (limit - ((((alookup requests key).getD []).filter
          (fun ts => now - rlWindow < ts)).length : Int) - 1) 0
      else 0) ∧
    (∀ times : List Int, times.Chain' (· ≤ ·) →
      (∀ t ∈ times, ∀ u ∈ times, t - u < rlWindow) →
      times.length = limit.toNat + 1 →
      (allowRun [] key limit times).1 = List.replicate limit.toNat true ++ [false]) := by
  refine ⟨?_, ?_, ?_, ?_⟩
  · simp only [InMemoryAllow, decide_eq_true_eq]
  · simp only [InMemoryAllow]
  · simp only [InMemoryAllow, decide_eq_true_eq]
    by_cases hallow :
        ((((alookup requests key).getD []).filter
          (fun ts => now - rlWindow < ts)).length : Int) < limit
    · rw [if_pos hallow, if_pos hallow]
      omega
    · rw [if_neg hallow, if_neg hallow]
  · intro times _ hwin hlen
    have h := allowRun_spec key limit times [] []
      (by rfl) (by intro p hp; simp at hp) hwin
    rw [h, hlen]
    have hmap : (fun k : Nat => decide ((([] : List Int).length : Int) + (k : Int) < limit))
        = (fun k : Nat => decide ((k : Int) < (limit.toNat : Int))) := by
      funext k
      rw [decide_eq_decide]
      simp only [List.length_nil, Nat.cast_zero, zero_add]
      omega
    rw [hmap, range_map_decide]

/-- C5 witness: the limiter statement with limit 2 at instant 0 on an
empty store, and the run [0, 1, 2] within one window. -/
theorem c5_witness :
    ((InMemoryAllow [] "k" 2 0).1.allowed = true ↔
      ((((alookup ([] : SMap (List Int)) "k").getD []).filter
          (fun ts => (0 : Int) - rlWindow < ts)).length : Int) < 2) ∧
    (allowRun [] "k" 2 [0, 1, 2]).1 = [true, true, false] := by
  have h := c5_inmemory_limiter [] "k" 2 0 (by decide)
  refine ⟨h.1, ?_⟩
  have h2 := h.2.2.2 [0, 1, 2]
    (by simp [List.chain'_cons]) (by decide) (by decide)
  simpa using h2

/-! ## Claim C3: exact-collision detection after a successful registration -/

/-- Validation does not change the identifying fields of a request,
only (possibly) the health URL default. -/
theorem validate_ok_fields {req req' : RegisterRequest}
    (h : req.Validate = .ok req') :
    req'.serviceName = req.serviceName ∧ req'.basePath = req.basePath ∧
    req'.routes = req.routes ∧ req'.host = req.host ∧ req'.port = req.port ∧
    req'.version = req.version ∧ req'.metadata = req.metadata := by
  unfold RegisterRequest.Validate at h
  split_ifs at h <;> cases h <;> simp

/-- First component of a pairwise fold whose components do not
interact. -/
theorem foldl_pair_fst {α β γ : Type} (l : List γ) (f : α → γ → α) (g : β → γ → β)
    (a : α) (b : β) :
    (l.foldl (fun acc x => (f acc.1 x, g acc.2 x)) (a, b)).1 = l.foldl f a := by
  induction l generalizing a b with
  | nil => rfl
  | cons x xs ih => exact ih _ _

/-- Destructuring of a successful registration: the collision check on
the pre-state was empty and the post-state adds the instance, appends
its id to the service bucket, and installs every route. -/
theorem register_ok_state {r : Registry} {req : RegisterRequest} {id : String} {now : Int}
    {resp : RegisterResponse} {r' : Registry}
    (h : r.Register req id now = .ok (resp, r')) :
    r.ValidateRoutes req.serviceName req.basePath req.routes = [] ∧
    ∃ inst : ServiceInstance,
      inst.serviceName = req.serviceName ∧ inst.status = .healthy ∧
      inst.lastHeartbeat = now ∧ inst.registeredAt = now ∧
      r' = { config := r.config
             instances := ainsert r.instances id inst
             services := ainsert r.services req.serviceName
               (((alookup r.services req.serviceName).getD []) ++ [id])
             routes := req.routes.foldl (fun acc route =>
               ainsert acc (route.method ++ ":" ++ route.FullPath req.basePath)
                 { serviceName := req.serviceName, basePath := req.basePath
                   route := route, registeredAt := now }) r.routes } := by
  unfold Registry.Register at h
  cases hv : req.Validate with
  | error msg => rw [hv] at h; exact absurd h (by simp)
  | ok req' =>
    rw [hv] at h
    obtain ⟨hsn, hbp, hrt, _, _, _, _⟩ := validate_ok_fields hv
    simp only at h
    split_ifs at h with hc
    rw [Except.ok.injEq, Prod.mk.injEq] at h
    obtain ⟨_, hr'⟩ := h
    have hcoll : r.ValidateRoutes req'.serviceName req'.basePath req'.routes = [] :=
      List.length_eq_zero.mp (by omega)
    constructor
    · rw [← hsn, ← hbp, ← hrt]
      exact hcoll
    · refine ⟨{ id := id, serviceName := req'.serviceName, host := req'.host
                port := req'.port, healthURL := req'.healthURL, version := req'.version
                status := .healthy, weight := 1, metadata := req'.metadata
                registeredAt := now, lastHeartbeat := now },
        hsn, rfl, rfl, rfl, ?_⟩
      rw [← hr']
      simp only [hsn, hbp, hrt]
      rw [foldl_pair_fst req.routes
        (fun acc route =>
          ainsert acc (route.method ++ ":" ++ route.FullPath req.basePath)
            { serviceName := req.serviceName, basePath := req.basePath
              route := route, registeredAt := now })
        (fun acc route => acc ++ [route.method ++ ":" ++ route.FullPath req.basePath])
        r.routes []]

/-- Single-route unfolding of ValidateRoutes. -/
theorem validateRoutes_singleton (r : Registry) (sname basePath : String) (r0 : Route) :
    r.ValidateRoutes sname basePath [r0] =
      (match r.checkExactCollision sname r0.method (r0.FullPath basePath) with
       | some c => [c]
       | none =>
          if r.config.strictPatternMatching then
            r.checkPatternCollision sname r0.method (r0.FullPath basePath)
          else []) := by
  cases h : r.checkExactCollision sname r0.method (r0.FullPath basePath) <;>
    simp [Registry.ValidateRoutes, h]

/-- C3: after service `a` successfully registers route `r0` under base
path `p`, re-running the collision check for any other service `b` on
the same route reports a collision, while the same check for `a`
itself still comes back empty (the exact check skips same-service
entries and the pattern scan ignores them). -/
theorem c3_collision_detection (r : Registry) (req : RegisterRequest) (r0 : Route)
    (instanceID b : String) (now : Int) (resp : RegisterResponse) (r' : Registry)
    (hroutes : req.routes = [r0])
    (hok : r.Register req instanceID now = .ok (resp, r'))
    (hb : b ≠ req.serviceName) :
    r'.ValidateRoutes b req.basePath [r0] ≠ [] ∧
    r'.ValidateRoutes req.serviceName req.basePath [r0] = [] := by
  obtain ⟨hval, inst, hsn, _, _, _, hr'⟩ := register_ok_state hok
  rw [hroutes] at hval hr'
  have hroutes' : r'.routes =
      ainsert r.routes (r0.method ++ ":" ++ r0.FullPath req.basePath)
        { serviceName := req.serviceName, basePath := req.basePath
          route := r0, registeredAt := now } := by
    rw [hr']
    rfl
  have hcfg : r'.config = r.config := by rw [hr']
  constructor
  · -- a collision is reported against another service
    rw [validateRoutes_singleton]
    have hexact : r'.checkExactCollision b r0.method (r0.FullPath req.basePath) =
        some { method := r0.method, path := r0.FullPath req.basePath
               collisionType := .exact, registeredBy := req.serviceName
               registeredAt := now } := by
      rw [Registry.checkExactCollision, hroutes', alookup_ainsert_self]
      simp only []
      rw [if_neg (by intro hcase; exact hb hcase.symm)]
    rw [hexact]
    simp
  · -- the same service still validates cleanly
    rw [validateRoutes_singleton]
    have hexact : r'.checkExactCollision req.serviceName r0.method
        (r0.FullPath req.basePath) = none := by
      rw [Registry.checkExactCollision, hroutes', alookup_ainsert_self]
      simp
    rw [hexact]
    by_cases hstrict : r'.config.strictPatternMatching
    · rw [if_pos hstrict]
      -- extract pattern emptiness on the pre-state
      rw [validateRoutes_singleton] at hval
      have hexact0 := hval
      have hpat0 : r.config.strictPatternMatching →
          r.checkPatternCollision req.serviceName r0.method (r0.FullPath req.basePath)
            = [] := by
        intro hs
        cases hch : r.checkExactCollision req.serviceName r0.method
            (r0.FullPath req.basePath) with
        | some c => rw [hch] at hval; simp at hval
        | none => rw [hch, if_pos hs] at hval; exact hval
      have hs0 : r.config.strictPatternMatching := by
        rw [hcfg] at hstrict; exact hstrict
      have hzero := hpat0 hs0
      rw [Registry.checkPatternCollision] at hzero ⊢
      rw [List.filterMap_eq_nil_iff] at hzero
      rw [List.filterMap_eq_nil_iff]
      intro p hp
      rw [hroutes'] at hp
      rcases List.mem_cons.1 hp with h1 | h1
      · rw [h1]
        simp
      · exact hzero p (List.mem_of_mem_filter h1)
    · rw [if_neg hstrict]

/-- C3 witness: the collision statement evaluated after registering the
sample single-route request. -/
theorem c3_witness :
    stSample.ValidateRoutes "other" reqSample.basePath [routeSample] ≠ [] ∧
    stSample.ValidateRoutes reqSample.serviceName reqSample.basePath [routeSample] = [] :=
  c3_collision_detection (NewRegistry cfgSample) reqSample routeSample "i1" "other" 0
    respSample stSample (by rfl) (by rfl) (by decide)

/-! ## Claim C2: the registry invariant is preserved -/

theorem markInstance_serviceName (ttl now : Int) (i : ServiceInstance) :
    (markInstance ttl now i).serviceName = i.serviceName := by
  unfold markInstance
  split_ifs <;> rfl

theorem removeInstanceLocked_none {r : Registry} {id : String}
    (h : alookup r.instances id = none) : r.removeInstanceLocked id = r := by
  unfold Registry.removeInstanceLocked
  rw [h]

/-- Invariant transfer onto a state whose instances are the old ones
minus `id`, given that every bucket member resolves away from `id`. -/
theorem inv_aerase_instances (r : Registry) (id : String) (X : SMap (List String))
    (R : SMap RouteEntry)
    (h : ∀ s' ids', alookup X s' = some ids' →
      ids'.Nodup ∧
      ∀ x ∈ ids', x ≠ id ∧ ∃ i, alookup r.instances x = some i ∧ i.serviceName = s') :
    RegistryInv { r with instances := aerase r.instances id, services := X, routes := R } := by
  intro s' ids' hl
  obtain ⟨hnd, hx⟩ := h s' ids' hl
  refine ⟨hnd, fun x hxm => ?_⟩
  obtain ⟨hne, i, hi, hsn⟩ := hx x hxm
  exact ⟨i, by rw [alookup_aerase_ne _ hne]; exact hi, hsn⟩

theorem inv_removeInstanceLocked {r : Registry} (id : String) (hinv : RegistryInv r) :
    RegistryInv (r.removeInstanceLocked id) := by
  cases hfind : alookup r.instances id with
  | none => rw [removeInstanceLocked_none hfind]; exact hinv
  | some inst =>
    -- every bucket member distinct from the removed id keeps resolving
    have hkeep : ∀ s' ids', alookup r.services s' = some ids' → s' ≠ inst.serviceName →
        ids'.Nodup ∧
        ∀ x ∈ ids', x ≠ id ∧ ∃ i, alookup r.instances x = some i ∧ i.serviceName = s' := by
      intro s' ids' hl hne
      obtain ⟨hnd, hx⟩ := hinv s' ids' hl
      refine ⟨hnd, fun x hxm => ?_⟩
      obtain ⟨i, hi, hsn⟩ := hx x hxm
      refine ⟨?_, i, hi, hsn⟩
      intro hc
      rw [hc, hfind] at hi
      cases hi
      exact hne (hsn ▸ rfl)
    unfold Registry.removeInstanceLocked
    rw [hfind]
    cases halo : alookup r.services inst.serviceName with
    | none =>
      simp only [halo, Option.getD_none, List.isEmpty_nil, if_true]
      apply inv_aerase_instances
      intro s' ids' hl
      have hs' : s' ≠ inst.serviceName := by
        intro hc
        rw [hc, alookup_aerase_self] at hl
        cases hl
      rw [alookup_aerase_ne _ hs'] at hl
      exact hkeep s' ids' hl hs'
    | some ids =>
      obtain ⟨hnd0, hx0⟩ := hinv inst.serviceName ids halo
      by_cases hmem : id ∈ ids
      · simp only [halo, hmem, if_true, alookup_ainsert_self, Option.getD_some]
        by_cases hbkt : (ids.erase id).isEmpty
        · rw [if_pos hbkt]
          apply inv_aerase_instances
          intro s' ids' hl
          have hs' : s' ≠ inst.serviceName := by
            intro hc
            rw [hc, alookup_aerase_self] at hl
            cases hl
          rw [alookup_aerase_ne _ hs', alookup_ainsert_ne _ _ hs'] at hl
          exact hkeep s' ids' hl hs'
        · rw [if_neg hbkt]
          apply inv_aerase_instances
          intro s' ids' hl
          by_cases hs' : s' = inst.serviceName
          · subst hs'
            rw [alookup_ainsert_self] at hl
            cases hl
            refine ⟨hnd0.erase id, fun x hxm => ?_⟩
            have hxm' := (List.Nodup.mem_erase_iff hnd0).1 hxm
            obtain ⟨i, hi, hsn⟩ := hx0 x hxm'.2
            exact ⟨hxm'.1, i, hi, hsn⟩
          · rw [alookup_ainsert_ne _ _ hs'] at hl
            exact hkeep s' ids' hl hs'
      · simp only [halo, hmem, if_false]
        by_cases hbkt : ids.isEmpty
        · simp only [Option.getD_some]
          rw [if_pos hbkt]
          apply inv_aerase_instances
          intro s' ids' hl
          have hs' : s' ≠ inst.serviceName := by
            intro hc
            rw [hc, alookup_aerase_self] at hl
            cases hl
          rw [alookup_aerase_ne _ hs'] at hl
          exact hkeep s' ids' hl hs'
        · simp only [Option.getD_some]
          rw [if_neg hbkt]
          apply inv_aerase_instances
          intro s' ids' hl
          by_cases hs' : s' = inst.serviceName
          · subst hs'
            rw [halo] at hl
            cases hl
            refine ⟨hnd0, fun x hxm => ?_⟩
            obtain ⟨i, hi, hsn⟩ := hx0 x hxm
            refine ⟨fun hc => hmem (hc ▸ hxm), i, hi, hsn⟩
          · exact hkeep s' ids' hl hs'

theorem inv_new (cfg : RegistryConfig) : RegistryInv (NewRegistry cfg) := by
  intro s ids h
  simp [NewRegistry, alookup] at h

theorem inv_heartbeat {r : Registry} {id : String} {now : Int} {r' : Registry}
    (hinv : RegistryInv r) (h : r.Heartbeat id now = .ok r') : RegistryInv r' := by
  unfold Registry.Heartbeat at h
  cases hfind : alookup r.instances id with
  | none => rw [hfind] at h; cases h
  | some inst =>
    rw [hfind] at h
    rw [Except.ok.injEq] at h
    rw [← h]
    intro s ids hl
    obtain ⟨hnd, hx⟩ := hinv s ids hl
    refine ⟨hnd, fun x hxm => ?_⟩
    obtain ⟨i, hi, hsn⟩ := hx x hxm
    by_cases hxid : x = id
    · subst hxid
      rw [hfind] at hi
      cases hi
      exact ⟨{ inst with lastHeartbeat := now }, alookup_ainsert_self _ _ _, hsn⟩
    · exact ⟨i, by rw [alookup_ainsert_ne _ _ hxid]; exact hi, hsn⟩

theorem inv_register {r : Registry} {req : RegisterRequest} {id : String} {now : Int}
    {resp : RegisterResponse} {r' : Registry}
    (hinv : RegistryInv r) (hfresh : alookup r.instances id = none)
    (h : r.Register req id now = .ok (resp, r')) : RegistryInv r' := by
  obtain ⟨-, inst, hsn, -, -, -, hr'⟩ := register_ok_state h
  subst hr'
  intro s ids hl
  by_cases hs : s = req.serviceName
  · subst hs
    rw [alookup_ainsert_self] at hl
    cases hl
    have hold : ∀ x ∈ (alookup r.services req.serviceName).getD [], x ≠ id ∧
        ∃ i, alookup r.instances x = some i ∧ i.serviceName = req.serviceName := by
      cases halo : alookup r.services req.serviceName with
      | none => intro x hx; simp at hx
      | some ids0 =>
        intro x hx
        simp only [Option.getD_some] at hx
        obtain ⟨i, hi, hisn⟩ := (hinv _ _ halo).2 x hx
        refine ⟨fun hc => ?_, i, hi, hisn⟩
        rw [hc, hfresh] at hi
        cases hi
    have hnodup : ((alookup r.services req.serviceName).getD []).Nodup := by
      cases halo : alookup r.services req.serviceName with
      | none => simp
      | some ids0 => simpa using (hinv _ _ halo).1
    constructor
    · rw [List.nodup_append]
      refine ⟨hnodup, List.nodup_singleton id, ?_⟩
      intro x hx
      simp only [List.mem_singleton]
      exact fun hc => (hold x hx).1 (by rw [hc])
    · intro x hx
      rcases List.mem_append.1 hx with h1 | h1
      · obtain ⟨hne, i, hi, hisn⟩ := hold x h1
        exact ⟨i, by rw [alookup_ainsert_ne _ _ hne]; exact hi, hisn⟩
      · have hxid : x = id := by simpa using h1
        subst hxid
        exact ⟨inst, alookup_ainsert_self _ _ _, hsn⟩
  · rw [alookup_ainsert_ne _ _ hs] at hl
    obtain ⟨hnd, hx⟩ := hinv s ids hl
    refine ⟨hnd, fun x hxm => ?_⟩
    obtain ⟨i, hi, hisn⟩ := hx x hxm
    have hxid : x ≠ id := by
      intro hc
      rw [hc, hfresh] at hi
      cases hi
    exact ⟨i, by rw [alookup_ainsert_ne _ _ hxid]; exact hi, hisn⟩

theorem inv_foldl_rm (l : List String) :
    ∀ (r : Registry), RegistryInv r →
      RegistryInv (l.foldl (fun st j => st.removeInstanceLocked j) r) := by
  induction l with
  | nil => intro r h; exact h
  | cons j rest ih => intro r h; exact ih _ (inv_removeInstanceLocked j h)

theorem inv_cleanup {r : Registry} (now : Int) (hinv : RegistryInv r) :
    RegistryInv (r.cleanup now) := by
  unfold Registry.cleanup
  apply inv_foldl_rm
  intro s ids h
  obtain ⟨hnd, hx⟩ := hinv s ids h
  refine ⟨hnd, fun x hxm => ?_⟩
  obtain ⟨i, hi, hsn⟩ := hx x hxm
  refine ⟨markInstance r.config.heartbeatTTL now i, ?_, by
    rw [markInstance_serviceName]; exact hsn⟩
  have hmap := alookup_map_entries r.instances
    (fun _ v => markInstance r.config.heartbeatTTL now v) x
  simp only at hmap
  rw [hmap, hi]
  rfl

theorem inv_deregister {r : Registry} {id : String} {r' : Registry}
    (hinv : RegistryInv r) (h : r.Deregister id = .ok r') : RegistryInv r' := by
  unfold Registry.Deregister at h
  cases hfind : alookup r.instances id with
  | none => rw [hfind] at h; cases h
  | some inst =>
    rw [hfind] at h
    rw [Except.ok.injEq] at h
    rw [← h]
    exact inv_removeInstanceLocked id hinv

/-- C2: in every reachable state of the registry, every id appearing in
any services bucket is a key of the instances map, the instance stored
under that id carries the bucket's service name, and no bucket contains
a duplicate id. -/
theorem c2_registry_invariant (r : Registry) (h : Reachable r) :
    ∀ s ids, alookup r.services s = some ids →
      ids.Nodup ∧
      ∀ id ∈ ids, ∃ inst, alookup r.instances id = some inst ∧ inst.serviceName = s := by
  have hinv : RegistryInv r := by
    induction h with
    | new cfg => exact inv_new cfg
    | register _ hfresh hok ih => exact inv_register ih hfresh hok
    | heartbeat _ hok ih => exact inv_heartbeat ih hok
    | deregister _ hok ih => exact inv_deregister ih hok
    | cleanup now _ ih => exact inv_cleanup now ih
  exact hinv

/-- C2 witness: the invariant evaluated on the state reached by one
registration from a fresh registry, at its one concrete bucket. -/
theorem c2_witness :
    (["i1"] : List String).Nodup ∧
    ∃ inst, alookup stSample.instances "i1" = some inst ∧
      inst.serviceName = "user-service" := by
  have h := c2_registry_invariant stSample
    (@Reachable.register (NewRegistry cfgSample) reqSample "i1" 0 respSample stSample
      (Reachable.new cfgSample) (by rfl) (by rfl)) "user-service" ["i1"] (by rfl)
  exact ⟨h.1, h.2 "i1" (by simp)⟩

/-! ## Claim C4: one cleanup scan -/

/-- The instances table of a removal: unchanged for an unknown id,
otherwise the id's bindings are erased. -/
theorem rm_instances (r : Registry) (j : String) :
    (r.removeInstanceLocked j).instances =
      match alookup r.instances j with
      | none => r.instances
      | some _ => aerase r.instances j := by
  unfold Registry.removeInstanceLocked
  cases h : alookup r.instances j with
  | none => rfl
  | some inst =>
    simp only []
    split_ifs <;> rfl

/-- Every route entry of a removal was a route entry before. -/
theorem rm_routes_sub (r : Registry) (j : String) {p : String × RouteEntry}
    (h : p ∈ (r.removeInstanceLocked j).routes) : p ∈ r.routes := by
  revert h
  unfold Registry.removeInstanceLocked
  cases hf : alookup r.instances j with
  | none => exact fun h => h
  | some inst =>
    simp only []
    split_ifs <;> intro h
    · exact List.mem_of_mem_filter h
    · exact h

theorem rm_lookup_ne {r : Registry} {j id : String} (h : id ≠ j) :
    alookup (r.removeInstanceLocked j).instances id = alookup r.instances id := by
  rw [rm_instances]
  cases hf : alookup r.instances j with
  | none => rfl
  | some inst => exact alookup_aerase_ne _ h

theorem rm_lookup_self (r : Registry) (id : String) :
    alookup (r.removeInstanceLocked id).instances id = none := by
  rw [rm_instances]
  cases hf : alookup r.instances id with
  | none => exact hf
  | some inst => exact alookup_aerase_self _ _

theorem rm_lookup_sub {r : Registry} {k j : String} {i : ServiceInstance}
    (h : alookup (r.removeInstanceLocked k).instances j = some i) :
    alookup r.instances j = some i := by
  rw [rm_instances] at h
  revert h
  cases hf : alookup r.instances k with
  | none => exact fun h => h
  | some inst =>
    intro h
    by_cases hjk : j = k
    · rw [hjk, alookup_aerase_self] at h
      cases h
    · rw [alookup_aerase_ne _ hjk] at h
      exact h

theorem rm_preserves_none {r : Registry} {j id : String}
    (h : alookup r.instances id = none) :
    alookup (r.removeInstanceLocked j).instances id = none := by
  by_cases hij : id = j
  · subst hij; exact rm_lookup_self r id
  · rw [rm_lookup_ne hij]; exact h

theorem foldl_rm_lookup (l : List String) :
    ∀ (r : Registry) (id : String), (∀ j ∈ l, j ≠ id) →
      alookup ((l.foldl (fun st j => st.removeInstanceLocked j) r).instances) id
        = alookup r.instances id := by
  induction l with
  | nil => intro r id _; rfl
  | cons j rest ih =>
    intro r id h
    rw [List.foldl_cons, ih _ _ (fun x hx => h x (List.mem_cons_of_mem _ hx))]
    exact rm_lookup_ne (fun hc => h j (List.mem_cons_self _ _) hc.symm)

theorem foldl_rm_none (l : List String) :
    ∀ (r : Registry) (id : String), alookup r.instances id = none →
      alookup ((l.foldl (fun st j => st.removeInstanceLocked j) r).instances) id = none := by
  induction l with
  | nil => intro r id h; exact h
  | cons j rest ih =>
    intro r id h
    exact ih _ _ (rm_preserves_none h)

theorem foldl_rm_mem_none (l : List String) :
    ∀ (r : Registry) (id : String), id ∈ l →
      alookup ((l.foldl (fun st j => st.removeInstanceLocked j) r).instances) id = none := by
  induction l with
  | nil => intro r id h; simp at h
  | cons j rest ih =>
    intro r id hmem
    rcases List.mem_cons.1 hmem with h1 | h1
    · subst h1
      exact foldl_rm_none rest _ _ (rm_lookup_self r id)
    · exact ih _ _ h1

/-- A removal does not touch service buckets other than the removed
instance's own. -/
theorem rm_services_lookup_ne {r : Registry} {k : String} {inst : ServiceInstance}
    (hfind : alookup r.instances k = some inst) {s0 : String}
    (hne : s0 ≠ inst.serviceName) :
    alookup (r.removeInstanceLocked k).services s0 = alookup r.services s0 := by
  unfold Registry.removeInstanceLocked
  rw [hfind]
  cases halo : alookup r.services inst.serviceName with
  | none =>
    simp only [halo]
    split_ifs
    · exact alookup_aerase_ne _ hne
    · rfl
  | some ids =>
    simp only [halo]
    split_ifs with h1 h2 h3
    · rw [alookup_aerase_ne _ hne, alookup_ainsert_ne _ _ hne]
    · rw [alookup_ainsert_ne _ _ hne]
    · exact alookup_aerase_ne _ hne
    · rfl

/-- A removal keeps a fully evicted service evicted: no instance of it,
no bucket, no routes. -/
theorem rm_preserves_gone (k s0 : String) (r : Registry)
    (hno : ∀ j i, alookup r.instances j = some i → i.serviceName ≠ s0)
    (hsvc : alookup r.services s0 = none)
    (hrt : ∀ p ∈ r.routes, p.2.serviceName ≠ s0) :
    (∀ j i, alookup (r.removeInstanceLocked k).instances j = some i →
      i.serviceName ≠ s0) ∧
    alookup (r.removeInstanceLocked k).services s0 = none ∧
    ∀ p ∈ (r.removeInstanceLocked k).routes, p.2.serviceName ≠ s0 := by
  refine ⟨fun j i hj => hno j i (rm_lookup_sub hj), ?_, fun p hp => hrt p (rm_routes_sub r k hp)⟩
  cases hfind : alookup r.instances k with
  | none => rw [removeInstanceLocked_none hfind]; exact hsvc
  | some inst =>
    rw [rm_services_lookup_ne hfind (hno k inst hfind).symm]
    exact hsvc

theorem foldl_rm_preserves_gone (l : List String) (s0 : String) :
    ∀ (r : Registry),
      (∀ j i, alookup r.instances j = some i → i.serviceName ≠ s0) →
      alookup r.services s0 = none →
      (∀ p ∈ r.routes, p.2.serviceName ≠ s0) →
      alookup ((l.foldl (fun st j => st.removeInstanceLocked j) r).services) s0 = none ∧
      ∀ p ∈ (l.foldl (fun st j => st.removeInstanceLocked j) r).routes,
        p.2.serviceName ≠ s0 := by
  induction l with
  | nil => intro r _ hsvc hrt; exact ⟨hsvc, hrt⟩
  | cons j rest ih =>
    intro r hno hsvc hrt
    obtain ⟨hno', hsvc', hrt'⟩ := rm_preserves_gone j s0 r hno hsvc hrt
    exact ih _ hno' hsvc' hrt'

/-- Removing the sole instance of a service evicts the service: its
bucket is deleted, its routes are pruned, and no remaining instance
carries its name. -/
theorem rm_last_instance (r : Registry) (id : String) (inst : ServiceInstance)
    (hinv : RegistryInv r)
    (hfind : alookup r.instances id = some inst)
    (huniq : ∀ j i, alookup r.instances j = some i →
      i.serviceName = inst.serviceName → j = id) :
    (∀ j i, alookup (r.removeInstanceLocked id).instances j = some i →
      i.serviceName ≠ inst.serviceName) ∧
    alookup (r.removeInstanceLocked id).services inst.serviceName = none ∧
    ∀ p ∈ (r.removeInstanceLocked id).routes, p.2.serviceName ≠ inst.serviceName := by
  have hinst : ∀ j i, alookup (r.removeInstanceLocked id).instances j = some i →
      i.serviceName ≠ inst.serviceName := by
    intro j i hj hc
    have hj0 : alookup r.instances j = some i := rm_lookup_sub hj
    have := huniq j i hj0 hc
    subst this
    rw [rm_lookup_self] at hj
    cases hj
  refine ⟨hinst, ?_, ?_⟩ <;>
  · unfold Registry.removeInstanceLocked
    rw [hfind]
    cases halo : alookup r.services inst.serviceName with
    | none =>
      simp only [halo, Option.getD_none, List.isEmpty_nil, if_true]
      first
        | exact alookup_aerase_self _ _
        | (intro p hp
           have := List.mem_filter.1 hp
           simpa using this.2)
    | some ids =>
      have hall : ∀ x ∈ ids, x = id := by
        intro x hx
        obtain ⟨i, hi, hisn⟩ := (hinv _ _ halo).2 x hx
        exact huniq x i hi hisn
      by_cases hmem : id ∈ ids
      · have herase : ids.erase id = [] := by
          rw [List.eq_nil_iff_forall_not_mem]
          intro x hx
          have h1 := (List.Nodup.mem_erase_iff (hinv _ _ halo).1).1 hx
          exact h1.1 (hall x h1.2)
        simp only [halo, hmem, if_true, alookup_ainsert_self, Option.getD_some, herase,
          List.isEmpty_nil]
        first
          | exact alookup_aerase_self _ _
          | (intro p hp
             have := List.mem_filter.1 hp
             simpa using this.2)
      · have hids : ids = [] := by
          rw [List.eq_nil_iff_forall_not_mem]
          intro x hx
          exact hmem ((hall x hx) ▸ hx)
        simp only [halo, hmem, if_false, Option.getD_some]
        simp only [hids, List.isEmpty_nil, if_true]
        first
          | exact alookup_aerase_self _ _
          | (intro p hp
             have := List.mem_filter.1 hp
             simpa using this.2)

/-- Folding removals over a list containing the sole instance of a
service evicts that service. -/
theorem fold_rm_gone (id : String) (sname : String) (l : List String) :
    ∀ (r : Registry),
      RegistryInv r →
      (∃ inst, alookup r.instances id = some inst ∧ inst.serviceName = sname) →
      (∀ j i, alookup r.instances j = some i → i.serviceName = sname → j = id) →
      id ∈ l →
      alookup ((l.foldl (fun st j => st.removeInstanceLocked j) r).services) sname = none ∧
      ∀ p ∈ (l.foldl (fun st j => st.removeInstanceLocked j) r).routes,
        p.2.serviceName ≠ sname := by
  induction l with
  | nil => intro r _ _ _ hmem; simp at hmem
  | cons j rest ih =>
    intro r hinv hex huniq hmem
    obtain ⟨inst, hfind, hsn⟩ := hex
    by_cases hj : j = id
    · subst hj
      subst hsn
      obtain ⟨hno, hsvc, hrt⟩ := rm_last_instance r j inst hinv hfind huniq
      rw [List.foldl_cons]
      exact foldl_rm_preserves_gone rest _ _ hno hsvc hrt
    · have hid' : id ∈ rest := by
        rcases List.mem_cons.1 hmem with h1 | h1
        · exact absurd h1.symm hj
        · exact h1
      rw [List.foldl_cons]
      apply ih
      · exact inv_removeInstanceLocked j hinv
      · refine ⟨inst, ?_, hsn⟩
        rw [rm_lookup_ne (fun hc => hj hc.symm)]
        exact hfind
      · intro j' i' hj' hsnn
        exact huniq j' i' (rm_lookup_sub hj') hsnn
      · exact hid'

/-- The status-marking pass preserves the registry invariant. -/
theorem inv_marked (r : Registry) (now : Int) (hinv : RegistryInv r) :
    RegistryInv
      { r with
        instances := r.instances.map
          (fun p => (p.1, markInstance r.config.heartbeatTTL now p.2)) } := by
  intro s ids h
  obtain ⟨hnd, hx⟩ := hinv s ids h
  refine ⟨hnd, fun x hxm => ?_⟩
  obtain ⟨i, hi, hsn⟩ := hx x hxm
  refine ⟨markInstance r.config.heartbeatTTL now i, ?_, by
    rw [markInstance_serviceName]; exact hsn⟩
  have hmap := alookup_map_entries r.instances
    (fun _ v => markInstance r.config.heartbeatTTL now v) x
  simp only at hmap
  rw [hmap, hi]
  rfl

/-- C4: effect of one cleanup scan on a given instance. With elapsed
`e = now - last_heartbeat`: while `e ≤ 2·TTL` the instance survives,
healthy at exactly the TTL, turned unhealthy only when `e` strictly
exceeds the TTL and it was healthy, otherwise untouched; it is removed
exactly when `e` strictly exceeds `2·TTL`, and when it was its
service's only instance the service's bucket and all its routes go
with it. -/
theorem c4_cleanup_boundaries (r : Registry) (now : Int) (instanceID : String)
    (inst : ServiceInstance)
    (hnodup : (r.instances.map Prod.fst).Nodup)
    (hinv : RegistryInv r)
    (hfind : alookup r.instances instanceID = some inst) :
    (now - inst.lastHeartbeat ≤ r.config.heartbeatTTL * 2 →
      alookup (r.cleanup now).instances instanceID =
        some (if r.config.heartbeatTTL < now - inst.lastHeartbeat ∧
                  inst.status = .healthy
              then { inst with status := .unhealthy } else inst)) ∧
    (r.config.heartbeatTTL * 2 < now - inst.lastHeartbeat →
      alookup (r.cleanup now).instances instanceID = none) ∧
    (r.config.heartbeatTTL * 2 < now - inst.lastHeartbeat →
      (∀ j instj, alookup r.instances j = some instj →
        instj.serviceName = inst.serviceName → j = instanceID) →
      alookup (r.cleanup now).services inst.serviceName = none ∧
      ∀ p ∈ (r.cleanup now).routes, p.2.serviceName ≠ inst.serviceName) := by
  have hclean : r.cleanup now =
      ((r.instances.filter
          (fun p => now - p.2.lastHeartbeat > r.config.heartbeatTTL * 2)).map
        Prod.fst).foldl (fun st j => st.removeInstanceLocked j)
        { r with instances := r.instances.map (fun p => (p.1, markInstance r.config.heartbeatTTL now p.2)) } := rfl
  have hmarked_lookup :
      alookup ({ r with instances := r.instances.map (fun p => (p.1, markInstance r.config.heartbeatTTL now p.2)) } : Registry).instances instanceID =
        some (markInstance r.config.heartbeatTTL now inst) := by
    have hmap := alookup_map_entries r.instances
      (fun _ v => markInstance r.config.heartbeatTTL now v) instanceID
    simp only at hmap
    simp only []
    rw [hmap, hfind]
    rfl
  have hin : r.config.heartbeatTTL * 2 < now - inst.lastHeartbeat →
      instanceID ∈ (r.instances.filter
        (fun p => now - p.2.lastHeartbeat > r.config.heartbeatTTL * 2)).map Prod.fst := by
    intro hgt
    refine List.mem_map.2 ⟨(instanceID, inst), ?_, rfl⟩
    refine List.mem_filter.2 ⟨alookup_mem hfind, ?_⟩
    exact decide_eq_true hgt
  have hout : now - inst.lastHeartbeat ≤ r.config.heartbeatTTL * 2 →
      instanceID ∉ (r.instances.filter
        (fun p => now - p.2.lastHeartbeat > r.config.heartbeatTTL * 2)).map Prod.fst := by
    intro hle hmem
    obtain ⟨p, hp, hpid⟩ := List.mem_map.1 hmem
    obtain ⟨hpin, hcond⟩ := List.mem_filter.1 hp
    have hpl : alookup r.instances p.1 = some p.2 :=
      alookup_of_mem_nodup hnodup (by simpa using hpin)
    rw [hpid, hfind] at hpl
    have hp2 : p.2 = inst := by
      injection hpl with h
      exact h.symm
    rw [hp2] at hcond
    have := of_decide_eq_true hcond
    omega
  refine ⟨?_, ?_, ?_⟩
  · intro hle
    rw [hclean, foldl_rm_lookup _ _ _
      (fun j hj hc => hout hle (by rw [← hc]; exact hj)), hmarked_lookup]
    congr 1
    unfold markInstance
    rw [if_neg (by omega)]
  · intro hgt
    rw [hclean]
    exact foldl_rm_mem_none _ _ _ (hin hgt)
  · intro hgt huniq
    rw [hclean]
    refine fold_rm_gone instanceID inst.serviceName _ _ ?_ ?_ ?_ (hin hgt)
    · exact inv_marked r now hinv
    · exact ⟨markInstance r.config.heartbeatTTL now inst, hmarked_lookup,
        markInstance_serviceName _ _ _⟩
    · intro j i hj hsnn
      have hmap := alookup_map_entries r.instances
        (fun _ v => markInstance r.config.heartbeatTTL now v) j
      simp only at hmap
      simp only [] at hj
      rw [hmap] at hj
      obtain ⟨i0, hi0, hfi⟩ := Option.map_eq_some'.1 hj
      apply huniq j i0 hi0
      calc i0.serviceName
          = (markInstance r.config.heartbeatTTL now i0).serviceName :=
            (markInstance_serviceName _ _ _).symm
        _ = i.serviceName := by rw [hfi]
        _ = inst.serviceName := hsnn

/-- C4 witness: the cleanup boundaries evaluated on the sample registry
(TTL 100, one instance heartbeated at 0) at instants 150 and 250. -/
theorem c4_witness :
    (alookup (stSample.cleanup 150).instances "i1" =
      some (if stSample.config.heartbeatTTL < (150 : Int) - instSample.lastHeartbeat ∧
                instSample.status = .healthy
            then { instSample with status := .unhealthy } else instSample)) ∧
    alookup (stSample.cleanup 250).instances "i1" = none ∧
    (alookup (stSample.cleanup 250).services instSample.serviceName = none ∧
      ∀ p ∈ (stSample.cleanup 250).routes, p.2.serviceName ≠ instSample.serviceName) := by
  have hinv : RegistryInv stSample :=
    @inv_register (NewRegistry cfgSample) reqSample "i1" 0 respSample stSample
      (inv_new cfgSample) (by rfl) (by rfl)
  have huniq : ∀ j instj, alookup stSample.instances j = some instj →
      instj.serviceName = instSample.serviceName → j = "i1" := by
    intro j instj hj _
    by_cases hji : ("i1" : String) = j
    · exact hji.symm
    · rw [show stSample.instances = [("i1", instSample)] from rfl] at hj
      simp only [alookup, hji, if_false] at hj
      cases hj
  have h150 := c4_cleanup_boundaries stSample 150 "i1" instSample (by decide) hinv (by rfl)
  have h250 := c4_cleanup_boundaries stSample 250 "i1" instSample (by decide) hinv (by rfl)
  exact ⟨h150.1 (by decide), h250.2.1 (by decide), h250.2.2 (by decide) huniq⟩
